import Mathlib

/-!
Verification development for the video-generation pipeline in app.py.
The Python source is shallowly embedded: the filesystem is a snapshot of
existing directory and file paths, each fallible external call carries an
injected-failure flag, and the pipeline functions are translated statement
by statement from the source.
-/

/-- A filesystem path, modelled as the list of its components from the root. -/
abbrev FPath := List String

/-- Snapshot of the filesystem: which directories and which regular files exist. -/
structure FS where
  dirs : List FPath
  files : List FPath
  deriving DecidableEq

/-- Holds when path q lies inside directory d, or is d itself. -/
def underDir : FPath → FPath → Bool
  | [], _ => true
  | _ :: _, [] => false
  | a :: as, b :: bs => a == b && underDir as bs

/-- Models os.path.isdir. -/
def isdir (fs : FS) (p : FPath) : Bool := decide (p ∈ fs.dirs)

/-- Models os.path.exists. -/
def existsPath (fs : FS) (p : FPath) : Bool :=
  decide (p ∈ fs.dirs) || decide (p ∈ fs.files)

/-- Models shutil.rmtree: removes the directory and everything below it. -/
def rmtree (fs : FS) (d : FPath) : FS :=
  { dirs := fs.dirs.filter (fun q => !(underDir d q)),
    files := fs.files.filter (fun q => !(underDir d q)) }

/-- Models os.remove: removes one regular file. -/
def removeFile (fs : FS) (p : FPath) : FS :=
  { fs with files := fs.files.filter (fun q => decide (q ≠ p)) }

/-- One iteration of the loop body of clean_temp_files (app.py lines 17-24).
The parameter faults lists the paths whose removal raises an exception in the
environment; the except branch of the source swallows that exception, logs it,
and leaves the filesystem unchanged for that path. -/
def clean_step (faults : List FPath) (fs : FS) (p : FPath) : FS :=
  if decide (p ∈ faults) then fs
  else if isdir fs p then rmtree fs p
  else if existsPath fs p then removeFile fs p
  else fs

/-- Models clean_temp_files (app.py lines 15-24): removes every registered
temporary path in order, swallowing any per-path removal error. -/
def clean_temp_files (faults : List FPath) (fs : FS) (temp_paths : List FPath) : FS :=
  temp_paths.foldl (clean_step faults) fs

theorem underDir_refl (p : FPath) : underDir p p = true := by
  induction p with
  | nil => rfl
  | cons a as ih => simp [underDir, ih]

theorem existsPath_clean_step_mono (faults : List FPath) (fs : FS) (q p : FPath)
    (h : existsPath fs p = false) : existsPath (clean_step faults fs q) p = false := by
  unfold existsPath at h ⊢
  simp only [Bool.or_eq_false_iff, decide_eq_false_iff_not] at h ⊢
  unfold clean_step
  split
  · exact h
  · split
    · unfold rmtree
      refine ⟨fun hm => h.1 (List.mem_filter.mp hm).1,
        fun hm => h.2 (List.mem_filter.mp hm).1⟩
    · split
      · unfold removeFile
        exact ⟨h.1, fun hm => h.2 (List.mem_filter.mp hm).1⟩
      · exact h

theorem clean_step_removes_self (faults : List FPath) (fs : FS) (p : FPath)
    (hf : p ∉ faults) : existsPath (clean_step faults fs p) p = false := by
  unfold clean_step
  rw [if_neg (by simpa using hf)]
  by_cases hd : isdir fs p
  · rw [if_pos hd]
    unfold existsPath rmtree
    simp only [Bool.or_eq_false_iff, decide_eq_false_iff_not]
    constructor
    · intro hm
      have := (List.mem_filter.mp hm).2
      simp [underDir_refl] at this
    · intro hm
      have := (List.mem_filter.mp hm).2
      simp [underDir_refl] at this
  · rw [if_neg hd]
    by_cases he : existsPath fs p
    · rw [if_pos he]
      unfold existsPath removeFile
      simp only [Bool.or_eq_false_iff, decide_eq_false_iff_not]
      constructor
      · intro hm
        exact hd (by simpa [isdir] using hm)
      · intro hm
        have := (List.mem_filter.mp hm).2
        simp at this
    · rw [if_neg he]
      simpa using he

theorem existsPath_clean_gone (faults : List FPath) (ps : List FPath) (fs : FS) (p : FPath)
    (h : existsPath fs p = false) :
    existsPath (clean_temp_files faults fs ps) p = false := by
  induction ps generalizing fs with
  | nil => exact h
  | cons q qs ih =>
    exact ih (clean_step faults fs q) (existsPath_clean_step_mono faults fs q p h)

theorem clean_removes (faults : List FPath) (ps : List FPath) (fs : FS) (p : FPath)
    (hp : p ∈ ps) (hf : p ∉ faults) :
    existsPath (clean_temp_files faults fs ps) p = false := by
  induction ps generalizing fs with
  | nil => cases hp
  | cons q qs ih =>
    rcases List.mem_cons.mp hp with h1 | h2
    · subst h1
      exact existsPath_clean_gone faults qs (clean_step faults fs p) p
        (clean_step_removes_self faults fs p hf)
    · exact ih (clean_step faults fs q) h2

theorem clean_step_id_of_gone (faults : List FPath) (fs : FS) (p : FPath)
    (h : existsPath fs p = false) : clean_step faults fs p = fs := by
  have hd : isdir fs p = false := by
    unfold existsPath at h
    unfold isdir
    exact (Bool.or_eq_false_iff.mp h).1
  unfold clean_step
  rw [hd, h]
  simp

theorem clean_id_of_all_gone (faults : List FPath) (ps : List FPath) (fs : FS)
    (h : ∀ p ∈ ps, existsPath fs p = false) :
    clean_temp_files faults fs ps = fs := by
  induction ps with
  | nil => rfl
  | cons q qs ih =>
    have hq : clean_step faults fs q = fs :=
      clean_step_id_of_gone faults fs q (h q (List.mem_cons_self q qs))
    show clean_temp_files faults (clean_step faults fs q) qs = fs
    rw [hq]
    exact ih (fun p hp => h p (List.mem_cons_of_mem q hp))

/-- Allow-set of the regular expression character class in clean_text
(app.py line 52): ASCII letters, digits, comma, period, question mark,
exclamation mark and space. -/
def allowedChar (c : Char) : Bool :=
  (decide ('a' ≤ c) && decide (c ≤ 'z')) ||
  (decide ('A' ≤ c) && decide (c ≤ 'Z')) ||
  (decide ('0' ≤ c) && decide (c ≤ '9')) ||
  (c == ',') || (c == '.') || (c == '?') || (c == '!') || (c == ' ')

/-- Models clean_text (app.py lines 51-52): re.sub removes every character
outside the allow-set, keeping the allowed characters in order. -/
def clean_text (text : String) : String :=
  String.mk (text.data.filter allowedChar)

/-- One word of the transcript produced by the transcriber; the word carries
its text and its start and end timestamps (app.py lines 57-59). The
timestamps are kept opaque, since the code only interpolates them into the
filter text. -/
structure Word where
  word : String
  start : String
  endT : String
  deriving DecidableEq

/-- One transcript segment: the list bound to its words key (app.py line 56);
a missing key yields the empty list. -/
structure Segment where
  words : List Word
  deriving DecidableEq

/-- The single-quote character, written by code point to keep it out of
string literals. -/
def sqch : String := String.mk [Char.ofNat 39]

/-- The drawtext filter text built for one word (app.py lines 61-66). -/
def drawtextOf (w : Word) : String :=
  "drawtext=font=" ++ sqch ++ "Arial" ++ sqch ++ ":text=" ++ sqch ++ clean_text w.word ++ sqch ++
    ":fontsize=60:fontcolor=white:bordercolor=black:borderw=2:" ++
    "x=(w-text_w)/2:y=(h-text_h)/2:" ++
    "enable=" ++ sqch ++ "between(t," ++ w.start ++ "," ++ w.endT ++ ")" ++ sqch

/-- The filters list built by the nested loops of create_subtitle_filter
(app.py lines 54-67): one appended entry per word, segment by segment. -/
def create_subtitle_filter_list (segments : List Segment) : List String :=
  segments.foldl
    (fun filters segment =>
      segment.words.foldl (fun fl w => fl ++ [drawtextOf w]) filters) []

/-- Models create_subtitle_filter (app.py lines 49-69): the filters joined
with commas. -/
def create_subtitle_filter (segments : List Segment) : String :=
  String.intercalate "," (create_subtitle_filter_list segments)

theorem foldl_append_one {α β : Type} (f : α → β) (l : List α) (acc : List β) :
    l.foldl (fun a x => a ++ [f x]) acc = acc ++ l.map f := by
  induction l generalizing acc with
  | nil => simp
  | cons x xs ih => simp [ih]

theorem create_subtitle_filter_list_eq (segments : List Segment) (acc : List String) :
    segments.foldl
      (fun filters segment =>
        segment.words.foldl (fun fl w => fl ++ [drawtextOf w]) filters) acc =
    acc ++ (segments.flatMap Segment.words).map drawtextOf := by
  induction segments generalizing acc with
  | nil => simp
  | cons s ss ih =>
    rw [List.foldl_cons, ih, foldl_append_one, List.flatMap_cons, List.map_append,
      List.append_assoc]

theorem length_flatMap_words (segments : List Segment) :
    (segments.flatMap Segment.words).length =
      (segments.map (fun s => s.words.length)).sum := by
  induction segments with
  | nil => rfl
  | cons s ss ih => simp [List.flatMap_cons, ih]

/-- C5: for every transcript, the overlay compiler emits exactly one
drawtext instruction per word, in segment-then-word order, so the compiled
overlay count equals the total word count; a word whose text sanitizes to
the empty string still yields its instruction. -/
theorem create_subtitle_filter_one_overlay_per_word (segments : List Segment) :
    create_subtitle_filter_list segments =
      (segments.flatMap Segment.words).map drawtextOf ∧
    (create_subtitle_filter_list segments).length =
      (segments.map (fun s => s.words.length)).sum := by
  have h := create_subtitle_filter_list_eq segments []
  constructor
  · simpa [create_subtitle_filter_list] using h
  · rw [show create_subtitle_filter_list segments =
        (segments.flatMap Segment.words).map drawtextOf by
          simpa [create_subtitle_filter_list] using h]
    rw [List.length_map]
    exact length_flatMap_words segments

/-- C6: the overlay text sanitizer is idempotent and its output contains
only characters of the allow-set. -/
theorem clean_text_idempotent_and_allowset (x : String) :
    clean_text (clean_text x) = clean_text x ∧
    (clean_text x).data.all allowedChar = true := by
  have hall : ∀ c ∈ x.data.filter allowedChar, allowedChar c = true :=
    fun c hc => (List.mem_filter.mp hc).2
  constructor
  · show String.mk ((x.data.filter allowedChar).filter allowedChar) =
      String.mk (x.data.filter allowedChar)
    rw [List.filter_eq_self.mpr hall]
  · exact List.all_eq_true.mpr hall

/-- One available source stream, as the fetch adapter sees it: whether it is
progressive, its container extension, and its numeric resolution
(720 stands for the 720p rung). -/
structure MediaStream where
  progressive : Bool
  file_extension : String
  res : Nat
  deriving DecidableEq

/-- The first stream query of download_youtube_video (app.py lines 31-35):
progressive mp4 streams at exactly 720p. -/
def streamsFilter720 (ss : List MediaStream) : List MediaStream :=
  ss.filter (fun s => s.progressive && (s.file_extension == "mp4") && (s.res == 720))

/-- The fallback stream query (app.py lines 35-38) before ordering:
progressive mp4 streams at any resolution. -/
def streamsFilterProg (ss : List MediaStream) : List MediaStream :=
  ss.filter (fun s => s.progressive && (s.file_extension == "mp4"))

/-- Insertion step of the descending sort on resolution. -/
def insertDescRes (x : MediaStream) : List MediaStream → List MediaStream
  | [] => [x]
  | y :: ys => if y.res ≤ x.res then x :: y :: ys else y :: insertDescRes x ys

/-- Models order_by(resolution).desc() of the fallback query: the streams
sorted by resolution, highest first. -/
def orderByResDesc (ss : List MediaStream) : List MediaStream :=
  ss.foldr insertDescRes []

/-- Models the stream selection of download_youtube_video (app.py lines
31-41): the first progressive 720p mp4 stream if one exists, otherwise the
first entry of the fallback query sorted by descending resolution, which is
the highest-resolution progressive mp4 stream with no cap. -/
def selectStream (ss : List MediaStream) : Option MediaStream :=
  match (streamsFilter720 ss).head? with
  | some s => some s
  | none => (orderByResDesc (streamsFilterProg ss)).head?

/-- A progressive 1080p mp4 stream. -/
def s1080 : MediaStream := ⟨true, "mp4", 1080⟩

/-- A progressive 360p mp4 stream. -/
def s360 : MediaStream := ⟨true, "mp4", 360⟩

/-- A progressive 720p mp4 stream. -/
def s720 : MediaStream := ⟨true, "mp4", 720⟩

/-- C2: refuted on the code. For a source offering progressive mp4 streams
at 1080p and 360p but not 720p, the fallback query of
download_youtube_video returns the 1080p stream, above the 720p ceiling,
even though a below-ceiling stream was available. -/
theorem stream_selection_exceeds_ceiling :
    selectStream [s1080, s360] = some s1080 ∧ 720 < s1080.res ∧ s360.res < 720 := by
  refine ⟨rfl, by decide, by decide⟩

/-- Pipeline state threaded through process_video: the filesystem, the
counter feeding tempfile.mkdtemp with fresh names, the temp_paths cleanup
registry (app.py line 73), the ffmpeg argument lists passed to
subprocess.run, and the video lists written to concat list files
(app.py lines 104-106). -/
structure St where
  fs : FS
  ctr : Nat
  temp_paths : List FPath
  cmds : List (List String)
  concatWrites : List (FPath × List FPath)
  deriving DecidableEq

/-- Models tempfile.mkdtemp: creates a fresh scratch directory and returns
its path. -/
def mkdtemp (s : St) : FPath × St :=
  let d : FPath := ["tmp" ++ toString s.ctr]
  (d, { s with fs := { s.fs with dirs := s.fs.dirs ++ [d] }, ctr := s.ctr + 1 })

/-- Creates one regular file on disk. -/
def addFile (p : FPath) (s : St) : St :=
  { s with fs := { s.fs with files := s.fs.files ++ [p] } }

/-- Models temp_paths.append(path): registers one path for cleanup. -/
def regPath (p : FPath) (s : St) : St :=
  { s with temp_paths := s.temp_paths ++ [p] }

/-- Environment of one source URL fetch: the URL text, the streams the
source offers, and the injected failure points of the two fallible pytube
calls (the YouTube constructor and stream.download). -/
structure FetchEnv where
  url : String
  streams : List MediaStream
  ctorFails : Bool
  downloadFails : Bool
  deriving DecidableEq

/-- Failure environment of one job: injected failure flags for synthesis,
transcription, concatenation and mux, plus the transcript the transcriber
returns. -/
structure Env where
  ttsFails : Bool
  transcribeFails : Bool
  transcript : List Segment
  concatFails : Bool
  muxFails : Bool
  deriving DecidableEq

/-- Renders a path for an ffmpeg argument list. -/
def pathStr (p : FPath) : String := String.intercalate "/" p

/-- The argument list of the concat invocation (app.py lines 109-112). -/
def concatCmd (concat_list combined_video : FPath) : List String :=
  ["ffmpeg", "-f", "concat", "-safe", "0",
   "-i", pathStr concat_list, "-c", "copy", pathStr combined_video]

/-- The argument list of the final mux invocation (app.py lines 124-137). -/
def muxCmd (input_video voice_path subtitle_filter output_path : String) : List String :=
  ["ffmpeg", "-y",
   "-i", input_video,
   "-i", voice_path,
   "-vf", subtitle_filter,
   "-map", "0:v",
   "-map", "1:a",
   "-c:v", "libx264",
   "-preset", "fast",
   "-crf", "23",
   "-c:a", "aac",
   "-shortest",
   output_path]

/-- Models download_youtube_video (app.py lines 26-47). The constructor may
raise; if no stream matches, an exception is raised; a scratch directory is
then created by mkdtemp, after which stream.download may raise. Every
raised exception is wrapped into a YouTube download failure. The downloaded
file is named after the URL, giving each source a distinct marker. -/
def download_youtube_video (fe : FetchEnv) (s : St) : St × Except String (FPath × FPath) :=
  if fe.ctorFails then (s, Except.error "YouTube download failed: bad url")
  else
    match selectStream fe.streams with
    | none => (s, Except.error "YouTube download failed: No suitable video stream found")
    | some _ =>
      let td := mkdtemp s
      let temp_dir := td.1
      let s1 := td.2
      if fe.downloadFails then (s1, Except.error "YouTube download failed: download error")
      else
        let video_path := temp_dir ++ [fe.url]
        (addFile video_path s1, Except.ok (video_path, temp_dir))

/-- The download loop of process_video (app.py lines 94-98): fetches each
URL in order, appending video_path and temp_dir to the cleanup registry
after each successful fetch; the first failure aborts the loop. -/
def fetch_loop : List FetchEnv → St → St × Except String (List FPath)
  | [], s => (s, Except.ok [])
  | fe :: rest, s =>
    match download_youtube_video fe s with
    | (s1, Except.error e) => (s1, Except.error e)
    | (s1, Except.ok (video_path, temp_dir)) =>
      let s2 := regPath temp_dir (regPath video_path s1)
      match fetch_loop rest s2 with
      | (s3, Except.error e) => (s3, Except.error e)
      | (s3, Except.ok vs) => (s3, Except.ok (video_path :: vs))

/-- The final composition call (app.py lines 119-137): builds the subtitle
filter, invokes ffmpeg to mux the chosen video with the narration, and
returns the output path on success. -/
def mux_step (env : Env) (work_dir voice_path : FPath) (input_video : String)
    (s : St) : St × Except String FPath :=
  let output_path := work_dir ++ ["final_output.mp4"]
  let subtitle_filter := create_subtitle_filter env.transcript
  let s1 := { s with cmds := s.cmds ++
    [muxCmd input_video (pathStr voice_path) subtitle_filter (pathStr output_path)] }
  if env.muxFails then (s1, Except.error "mux failed")
  else (addFile output_path s1, Except.ok output_path)

/-- Steps 4 and 5 of process_video (app.py lines 100-137): when more than
one video was fetched, write the concat list, run the concat invocation and
mux the combined file; otherwise mux video_segments[0] directly, an empty
list raising an index error. -/
def combine_and_mux (env : Env) (work_dir voice_path : FPath)
    (video_segments : List FPath) (s : St) : St × Except String FPath :=
  if 1 < video_segments.length then
    let concat_list := work_dir ++ ["concat.txt"]
    let s4 := { (addFile concat_list s) with
      concatWrites := s.concatWrites ++ [(concat_list, video_segments)] }
    let combined_video := work_dir ++ ["combined.mp4"]
    let s5 := { s4 with cmds := s4.cmds ++ [concatCmd concat_list combined_video] }
    if env.concatFails then (s5, Except.error "concat failed")
    else
      let s6 := regPath combined_video (regPath concat_list (addFile combined_video s5))
      mux_step env work_dir voice_path (pathStr combined_video) s6
  else
    match video_segments with
    | [] => (s, Except.error "list index out of range")
    | v :: _ => mux_step env work_dir voice_path (pathStr v) s

/-- Models the body of the try block of process_video (app.py lines 75-139):
create the workspace and register it, synthesize and register the narration,
transcribe, fetch all sources, then combine and mux. The temp_paths registry
starts empty (app.py line 73). -/
def process_video_core (env : Env) (urls : List FetchEnv) (s0 : St) :
    St × Except String FPath :=
  let sa := { s0 with temp_paths := ([] : List FPath) }
  let ws := mkdtemp sa
  let work_dir := ws.1
  let s1 := regPath work_dir ws.2
  let voice_path := work_dir ++ ["narration.mp3"]
  if env.ttsFails then (s1, Except.error "synthesis failed")
  else
    let s2 := regPath voice_path (addFile voice_path s1)
    if env.transcribeFails then (s2, Except.error "transcription failed")
    else
      match fetch_loop urls s2 with
      | (s3, Except.error e) => (s3, Except.error e)
      | (s3, Except.ok video_segments) =>
        combine_and_mux env work_dir voice_path video_segments s3

/-- Models process_video (app.py lines 71-143): on any failure inside the
try block, clean_temp_files is run on the registry and the wrapped error is
re-raised; on success the output path is returned with the registry intact. -/
def process_video (cleanFaults : List FPath) (env : Env) (urls : List FetchEnv)
    (s0 : St) : St × Except String FPath :=
  match process_video_core env urls s0 with
  | (s, Except.ok out) => (s, Except.ok out)
  | (s, Except.error e) =>
    ({ s with fs := clean_temp_files cleanFaults s.fs s.temp_paths },
     Except.error ("Video processing failed: " ++ e))

/-- HTTP-level response of the endpoint. -/
inductive Resp where
  | file (p : FPath)
  | err (code : Nat) (msg : String)
  deriving DecidableEq

/-- Python truthiness test applied to the prompt field: None and the empty
string are falsy. -/
def promptFalsy : Option String → Bool
  | none => true
  | some t => t == ""

/-- Models generate_video (app.py lines 146-176): validate the prompt and
the link count, run process_video, and on success send the file, cleaning
the registry in the finally block; a processing error becomes a 500
response, a validation failure a 400 response with no work done. -/
def generate_video (cleanFaults : List FPath) (env : Env) (prompt : Option String)
    (links : List FetchEnv) (s0 : St) : Resp × St :=
  if promptFalsy prompt || links.isEmpty then
    (Resp.err 400 "Missing prompt or video links", s0)
  else if 10 < links.length then
    (Resp.err 400 "Maximum 10 videos allowed", s0)
  else
    match process_video cleanFaults env links s0 with
    | (s, Except.ok out) =>
      (Resp.file out,
       { s with fs := clean_temp_files cleanFaults s.fs s.temp_paths })
    | (s, Except.error e) => (Resp.err 500 e, s)


theorem download_preserves (fe : FetchEnv) (s : St) :
    ((download_youtube_video fe s).1).cmds = s.cmds ∧
    ((download_youtube_video fe s).1).concatWrites = s.concatWrites := by
  unfold download_youtube_video
  split
  · exact ⟨rfl, rfl⟩
  · split
    · exact ⟨rfl, rfl⟩
    · split
      · exact ⟨rfl, rfl⟩
      · exact ⟨rfl, rfl⟩

theorem download_ok_shape (fe : FetchEnv) (s s1 : St) (v d : FPath)
    (h : download_youtube_video fe s = (s1, Except.ok (v, d))) :
    v = d ++ [fe.url] := by
  unfold download_youtube_video at h
  split at h
  · simp at h
  · split at h
    · simp at h
    · split at h
      · simp at h
      · injection h with h1 h2
        injection h2 with h2
        injection h2 with hv hd
        rw [← hv, ← hd]

theorem fetch_loop_preserves (urls : List FetchEnv) :
    ∀ s : St, ((fetch_loop urls s).1).cmds = s.cmds ∧
      ((fetch_loop urls s).1).concatWrites = s.concatWrites := by
  induction urls with
  | nil => intro s; exact ⟨rfl, rfl⟩
  | cons fe rest ih =>
    intro s
    unfold fetch_loop
    rcases hd : download_youtube_video fe s with ⟨s1, r⟩
    have hp := download_preserves fe s
    rw [hd] at hp
    cases r with
    | error e => exact hp
    | ok vp =>
      rcases vp with ⟨v, d⟩
      dsimp only
      rcases hf : fetch_loop rest (regPath d (regPath v s1)) with ⟨s3, r3⟩
      have ihp := ih (regPath d (regPath v s1))
      rw [hf] at ihp
      cases r3 with
      | error e => exact ⟨ihp.1.trans hp.1, ihp.2.trans hp.2⟩
      | ok vs => exact ⟨ihp.1.trans hp.1, ihp.2.trans hp.2⟩

theorem fetch_loop_ok_markers (urls : List FetchEnv) :
    ∀ (s s3 : St) (segs : List FPath), fetch_loop urls s = (s3, Except.ok segs) →
      segs.map (fun p => p.getLast?) = urls.map (fun fe => some fe.url) := by
  induction urls with
  | nil =>
    intro s s3 segs h
    injection h with h1 h2
    injection h2 with h2
    rw [← h2]
    rfl
  | cons fe rest ih =>
    intro s s3 segs h
    unfold fetch_loop at h
    rcases hd : download_youtube_video fe s with ⟨s1, r⟩
    rw [hd] at h
    cases r with
    | error e => simp at h
    | ok vp =>
      rcases vp with ⟨v, d⟩
      have h2 : (match fetch_loop rest (regPath d (regPath v s1)) with
        | (s3, Except.error e) => (s3, Except.error e)
        | (s3, Except.ok vs) => (s3, Except.ok (v :: vs))) = (s3, Except.ok segs) := h
      rcases hf : fetch_loop rest (regPath d (regPath v s1)) with ⟨s3x, r3⟩
      rw [hf] at h2
      cases r3 with
      | error e => simp at h2
      | ok vs =>
        injection h2 with h1x h2x
        injection h2x with h2x
        rw [← h2x]
        have hv : v = d ++ [fe.url] := download_ok_shape fe s s1 v d hd
        have hrest := ih (regPath d (regPath v s1)) s3x vs hf
        simp only [List.map_cons, hrest, hv, List.getLast?_concat]

/-- The workspace directory that process_video allocates when started from
state s0. -/
def workDirOf (s0 : St) : FPath := ["tmp" ++ toString s0.ctr]

/-- The pipeline state after workspace creation, narration synthesis and
registration, just before the download loop. -/
def pre_fetch_state (s0 : St) : St :=
  let sa := { s0 with temp_paths := ([] : List FPath) }
  let ws := mkdtemp sa
  let s1 := regPath ws.1 ws.2
  let voice_path := ws.1 ++ ["narration.mp3"]
  regPath voice_path (addFile voice_path s1)

theorem combine_and_mux_ok (env : Env) (wd vp : FPath) (segs : List FPath)
    (s s' : St) (out : FPath)
    (h : combine_and_mux env wd vp segs s = (s', Except.ok out)) :
    out = wd ++ ["final_output.mp4"] ∧
    ((∃ v, segs = [v] ∧
        s'.concatWrites = s.concatWrites ∧
        s'.cmds = s.cmds ++ [muxCmd (pathStr v) (pathStr vp)
          (create_subtitle_filter env.transcript)
          (pathStr (wd ++ ["final_output.mp4"]))]) ∨
     (1 < segs.length ∧
        s'.concatWrites = s.concatWrites ++ [(wd ++ ["concat.txt"], segs)] ∧
        s'.cmds = s.cmds ++
          [concatCmd (wd ++ ["concat.txt"]) (wd ++ ["combined.mp4"]),
           muxCmd (pathStr (wd ++ ["combined.mp4"])) (pathStr vp)
             (create_subtitle_filter env.transcript)
             (pathStr (wd ++ ["final_output.mp4"]))])) := by
  unfold combine_and_mux at h
  split at h
  case isTrue hlen =>
    split at h
    · simp at h
    · unfold mux_step at h
      split at h
      · simp at h
      · injection h with h1 h2
        injection h2 with h2
        refine ⟨h2.symm, Or.inr ⟨hlen, ?_, ?_⟩⟩
        · rw [← h1]
          simp [addFile, regPath]
        · rw [← h1]
          simp [addFile, regPath]
  case isFalse hlen =>
    cases segs with
    | nil => simp at h
    | cons v t =>
      have ht : t = [] := by
        rcases t with _ | ⟨x, xs⟩
        · rfl
        · exact absurd (by simp only [List.length_cons]; omega) hlen
      subst ht
      have hm : mux_step env wd vp (pathStr v) s = (s', Except.ok out) := h
      unfold mux_step at hm
      split at hm
      · simp at hm
      · injection hm with h1 h2
        injection h2 with h2
        refine ⟨h2.symm, Or.inl ⟨v, rfl, ?_, ?_⟩⟩
        · rw [← h1]
          simp [addFile, regPath]
        · rw [← h1]
          simp [addFile, regPath]

theorem core_ok_cases (env : Env) (urls : List FetchEnv) (s0 s' : St) (out : FPath)
    (h : process_video_core env urls s0 = (s', Except.ok out)) :
    ∃ s3 segs, fetch_loop urls (pre_fetch_state s0) = (s3, Except.ok segs) ∧
      combine_and_mux env (workDirOf s0) (workDirOf s0 ++ ["narration.mp3"])
        segs s3 = (s', Except.ok out) := by
  unfold process_video_core at h
  split at h
  · simp at h
  · split at h
    · simp at h
    · have h2 : (match fetch_loop urls (pre_fetch_state s0) with
        | (s3, Except.error e) => (s3, Except.error e)
        | (s3, Except.ok video_segments) =>
          combine_and_mux env (workDirOf s0) (workDirOf s0 ++ ["narration.mp3"])
            video_segments s3) = (s', Except.ok out) := h
      rcases hf : fetch_loop urls (pre_fetch_state s0) with ⟨s3, r⟩
      rw [hf] at h2
      cases r with
      | error e => simp at h2
      | ok segs => exact ⟨s3, segs, rfl, h2⟩

/-- C4: for every successful run of process_video, a single fetched source
is muxed directly and no concat list is ever written, while more than one
fetched source is concatenated into combined.mp4 from a concat list that
holds the sources in input URL order (each source file carries its URL as
marker), and the combined file is what gets muxed. -/
theorem process_video_concat_order (env : Env) (urls : List FetchEnv)
    (s0 s' : St) (out : FPath)
    (h : process_video_core env urls s0 = (s', Except.ok out)) :
    (urls.length = 1 →
      s'.concatWrites = s0.concatWrites ∧
      ∃ fe v, urls = [fe] ∧ v.getLast? = some fe.url ∧
        s'.cmds = s0.cmds ++ [muxCmd (pathStr v)
          (pathStr (workDirOf s0 ++ ["narration.mp3"]))
          (create_subtitle_filter env.transcript)
          (pathStr (workDirOf s0 ++ ["final_output.mp4"]))]) ∧
    (1 < urls.length →
      ∃ segs, segs.map (fun p => p.getLast?) = urls.map (fun fe => some fe.url) ∧
        s'.concatWrites = s0.concatWrites ++
          [(workDirOf s0 ++ ["concat.txt"], segs)] ∧
        s'.cmds = s0.cmds ++
          [concatCmd (workDirOf s0 ++ ["concat.txt"])
             (workDirOf s0 ++ ["combined.mp4"]),
           muxCmd (pathStr (workDirOf s0 ++ ["combined.mp4"]))
             (pathStr (workDirOf s0 ++ ["narration.mp3"]))
             (create_subtitle_filter env.transcript)
             (pathStr (workDirOf s0 ++ ["final_output.mp4"]))]) := by
  obtain ⟨s3, segs, hfl, hcm⟩ := core_ok_cases env urls s0 s' out h
  have hmark := fetch_loop_ok_markers urls (pre_fetch_state s0) s3 segs hfl
  have hlen : segs.length = urls.length := by
    have := congrArg List.length hmark
    simpa using this
  have hpres := fetch_loop_preserves urls (pre_fetch_state s0)
  rw [hfl] at hpres
  obtain ⟨hout, hcase⟩ := combine_and_mux_ok env _ _ segs s3 s' out hcm
  constructor
  · intro h1
    rcases hcase with ⟨v, hv, hcw, hcmds⟩ | ⟨hgt, hcw, hcmds⟩
    · obtain ⟨fe, hfe⟩ := List.length_eq_one.mp h1
      subst hfe
      refine ⟨hcw.trans hpres.2, fe, v, rfl, ?_, ?_⟩
      · rw [hv] at hmark
        simpa using hmark
      · rw [hcmds, hpres.1]
        rfl
    · rw [hlen, h1] at hgt
      exact absurd hgt (by omega)
  · intro h1
    rcases hcase with ⟨v, hv, hcw, hcmds⟩ | ⟨hgt, hcw, hcmds⟩
    · rw [hv] at hlen
      rw [← hlen] at h1
      simp at h1
    · refine ⟨segs, hmark, ?_, ?_⟩
      · rw [hcw, hpres.2]
        rfl
      · rw [hcmds, hpres.1]
        rfl

theorem muxCmd_props (v a f o : String) :
    (muxCmd v a f o).take 6 = ["ffmpeg", "-y", "-i", v, "-i", a] ∧
    ["-map", "0:v"] <:+: muxCmd v a f o ∧
    ["-map", "1:a"] <:+: muxCmd v a f o ∧
    ["-c:v", "libx264", "-preset", "fast"] <:+: muxCmd v a f o ∧
    ["-c:a", "aac"] <:+: muxCmd v a f o ∧
    "-shortest" ∈ muxCmd v a f o := by
  refine ⟨rfl, ⟨["ffmpeg", "-y", "-i", v, "-i", a, "-vf", f],
      ["-map", "1:a", "-c:v", "libx264", "-preset", "fast", "-crf", "23",
       "-c:a", "aac", "-shortest", o], rfl⟩,
    ⟨["ffmpeg", "-y", "-i", v, "-i", a, "-vf", f, "-map", "0:v"],
      ["-c:v", "libx264", "-preset", "fast", "-crf", "23",
       "-c:a", "aac", "-shortest", o], rfl⟩,
    ⟨["ffmpeg", "-y", "-i", v, "-i", a, "-vf", f, "-map", "0:v", "-map", "1:a"],
      ["-crf", "23", "-c:a", "aac", "-shortest", o], rfl⟩,
    ⟨["ffmpeg", "-y", "-i", v, "-i", a, "-vf", f, "-map", "0:v", "-map", "1:a",
      "-c:v", "libx264", "-preset", "fast", "-crf", "23"],
      ["-shortest", o], rfl⟩, ?_⟩
  simp [muxCmd]

/-- C8: every successful run ends with the fixed mux invocation: the last
external command maps the video stream of input 0 and the audio stream of
input 1, where input 0 is the chosen video and input 1 the narration file,
re-encodes with libx264 at preset fast and audio as aac, and always passes
the -shortest flag. -/
theorem mux_command_contract (env : Env) (urls : List FetchEnv)
    (s0 s' : St) (out : FPath)
    (h : process_video_core env urls s0 = (s', Except.ok out)) :
    ∃ v f, s'.cmds.getLast? = some (muxCmd v
        (pathStr (workDirOf s0 ++ ["narration.mp3"])) f
        (pathStr (workDirOf s0 ++ ["final_output.mp4"]))) ∧
      (muxCmd v (pathStr (workDirOf s0 ++ ["narration.mp3"])) f
          (pathStr (workDirOf s0 ++ ["final_output.mp4"]))).take 6 =
        ["ffmpeg", "-y", "-i", v, "-i",
         pathStr (workDirOf s0 ++ ["narration.mp3"])] ∧
      ["-map", "0:v"] <:+: muxCmd v (pathStr (workDirOf s0 ++ ["narration.mp3"])) f
        (pathStr (workDirOf s0 ++ ["final_output.mp4"])) ∧
      ["-map", "1:a"] <:+: muxCmd v (pathStr (workDirOf s0 ++ ["narration.mp3"])) f
        (pathStr (workDirOf s0 ++ ["final_output.mp4"])) ∧
      ["-c:v", "libx264", "-preset", "fast"] <:+:
        muxCmd v (pathStr (workDirOf s0 ++ ["narration.mp3"])) f
          (pathStr (workDirOf s0 ++ ["final_output.mp4"])) ∧
      ["-c:a", "aac"] <:+: muxCmd v (pathStr (workDirOf s0 ++ ["narration.mp3"])) f
        (pathStr (workDirOf s0 ++ ["final_output.mp4"])) ∧
      "-shortest" ∈ muxCmd v (pathStr (workDirOf s0 ++ ["narration.mp3"])) f
        (pathStr (workDirOf s0 ++ ["final_output.mp4"])) := by
  obtain ⟨s3, segs, hfl, hcm⟩ := core_ok_cases env urls s0 s' out h
  obtain ⟨hout, hcase⟩ := combine_and_mux_ok env _ _ segs s3 s' out hcm
  rcases hcase with ⟨v, hv, hcw, hcmds⟩ | ⟨hgt, hcw, hcmds⟩
  · refine ⟨pathStr v, create_subtitle_filter env.transcript, ?_,
      muxCmd_props _ _ _ _⟩
    rw [hcmds]
    exact List.getLast?_concat _
  · refine ⟨pathStr (workDirOf s0 ++ ["combined.mp4"]),
      create_subtitle_filter env.transcript, ?_, muxCmd_props _ _ _ _⟩
    rw [hcmds]
    rw [show s3.cmds ++
      [concatCmd (workDirOf s0 ++ ["concat.txt"]) (workDirOf s0 ++ ["combined.mp4"]),
       muxCmd (pathStr (workDirOf s0 ++ ["combined.mp4"]))
         (pathStr (workDirOf s0 ++ ["narration.mp3"]))
         (create_subtitle_filter env.transcript)
         (pathStr (workDirOf s0 ++ ["final_output.mp4"]))] =
      (s3.cmds ++
        [concatCmd (workDirOf s0 ++ ["concat.txt"]) (workDirOf s0 ++ ["combined.mp4"])]) ++
        [muxCmd (pathStr (workDirOf s0 ++ ["combined.mp4"]))
          (pathStr (workDirOf s0 ++ ["narration.mp3"]))
          (create_subtitle_filter env.transcript)
          (pathStr (workDirOf s0 ++ ["final_output.mp4"]))] by simp]
    exact List.getLast?_concat _

/-- The pipeline state right after workspace creation and registration. -/
def post_workspace_state (s0 : St) : St :=
  let sa := { s0 with temp_paths := ([] : List FPath) }
  let ws := mkdtemp sa
  regPath ws.1 ws.2

theorem process_video_core_eq (env : Env) (urls : List FetchEnv) (s0 : St) :
    process_video_core env urls s0 =
      (if env.ttsFails then (post_workspace_state s0, Except.error "synthesis failed")
       else if env.transcribeFails then
         (pre_fetch_state s0, Except.error "transcription failed")
       else
         match fetch_loop urls (pre_fetch_state s0) with
         | (s3, Except.error e) => (s3, Except.error e)
         | (s3, Except.ok video_segments) =>
           combine_and_mux env (workDirOf s0) (workDirOf s0 ++ ["narration.mp3"])
             video_segments s3) := rfl

theorem combine_snd_transcript (tf trf cf mf : Bool) (tr T : List Segment)
    (wd vp : FPath) (segs : List FPath) (s : St) :
    (combine_and_mux ⟨tf, trf, T, cf, mf⟩ wd vp segs s).2 =
      (combine_and_mux ⟨tf, trf, tr, cf, mf⟩ wd vp segs s).2 := by
  unfold combine_and_mux mux_step
  dsimp only
  by_cases h1 : 1 < segs.length
  · rw [if_pos h1, if_pos h1]
    by_cases h2 : cf = true
    · rw [if_pos h2, if_pos h2]
    · rw [if_neg h2, if_neg h2]
      by_cases h3 : mf = true
      · rw [if_pos h3, if_pos h3]
      · rw [if_neg h3, if_neg h3]
  · rw [if_neg h1, if_neg h1]
    cases segs with
    | nil => rfl
    | cons v t =>
      dsimp only
      by_cases h3 : mf = true
      · rw [if_pos h3, if_pos h3]
      · rw [if_neg h3, if_neg h3]

theorem core_snd_transcript (env : Env) (T : List Segment) (urls : List FetchEnv)
    (s0 : St) :
    (process_video_core { env with transcript := T } urls s0).2 =
      (process_video_core env urls s0).2 := by
  rw [process_video_core_eq, process_video_core_eq]
  cases env with
  | mk tf trf tr cf mf =>
    dsimp only
    by_cases h1 : tf = true
    · rw [if_pos h1, if_pos h1]
    · rw [if_neg h1, if_neg h1]
      by_cases h2 : trf = true
      · rw [if_pos h2, if_pos h2]
      · rw [if_neg h2, if_neg h2]
        rcases hfl : fetch_loop urls (pre_fetch_state s0) with ⟨s3, r⟩
        cases r with
        | error e => rfl
        | ok segs => exact combine_snd_transcript tf trf cf mf tr T _ _ segs s3

theorem process_video_snd_transcript (cleanFaults : List FPath) (env : Env)
    (T : List Segment) (urls : List FetchEnv) (s0 : St) :
    (process_video cleanFaults { env with transcript := T } urls s0).2 =
      (process_video cleanFaults env urls s0).2 := by
  unfold process_video
  rcases h1 : process_video_core { env with transcript := T } urls s0 with ⟨sA, rA⟩
  rcases h2 : process_video_core env urls s0 with ⟨sB, rB⟩
  have he : rA = rB := by
    have hx := core_snd_transcript env T urls s0
    rw [h1, h2] at hx
    exact hx
  subst he
  cases rA with
  | error e => rfl
  | ok out => rfl

theorem flatMap_words_nil (segs : List Segment) (h : ∀ s ∈ segs, s.words = []) :
    segs.flatMap Segment.words = [] := by
  induction segs with
  | nil => rfl
  | cons s ss ih =>
    rw [List.flatMap_cons, h s (List.mem_cons_self s ss), List.nil_append]
    exact ih (fun x hx => h x (List.mem_cons_of_mem s hx))

/-- C7: an empty transcript is valid input to the pipeline: it compiles to
zero overlay instructions, and swapping any transcript for the empty one
never changes whether, or how, process_video succeeds or fails, so the job
proceeds to composition instead of erroring on the empty result. -/
theorem transcript_empty_is_valid (segs : List Segment) (cleanFaults : List FPath)
    (env : Env) (urls : List FetchEnv) (s0 : St)
    (h : ∀ s ∈ segs, s.words = []) :
    create_subtitle_filter_list segs = [] ∧
    (process_video cleanFaults { env with transcript := segs } urls s0).2 =
      (process_video cleanFaults env urls s0).2 := by
  constructor
  · unfold create_subtitle_filter_list
    rw [create_subtitle_filter_list_eq, flatMap_words_nil segs h]
    rfl
  · exact process_video_snd_transcript cleanFaults env segs urls s0

theorem generate_video_resp_indep (cf1 cf2 : List FPath) (env : Env)
    (prompt : Option String) (links : List FetchEnv) (s0 : St) :
    (generate_video cf1 env prompt links s0).1 =
      (generate_video cf2 env prompt links s0).1 := by
  unfold generate_video
  by_cases h1 : (promptFalsy prompt || links.isEmpty) = true
  · rw [if_pos h1, if_pos h1]
  · rw [if_neg h1, if_neg h1]
    by_cases h2 : 10 < links.length
    · rw [if_pos h2, if_pos h2]
    · rw [if_neg h2, if_neg h2]
      unfold process_video
      rcases hc : process_video_core env links s0 with ⟨s, r⟩
      cases r with
      | error e => rfl
      | ok out => rfl

/-- C3: a falsy prompt or an empty link list is rejected with the 400
missing-input error, and more than ten links with the 400 maximum-videos
error; in both cases the returned state is exactly the input state, so no
workspace or any other filesystem path was created. -/
theorem generate_video_rejects_invalid_before_work (cleanFaults : List FPath)
    (env : Env) (prompt : Option String) (links : List FetchEnv) (s0 : St) :
    ((promptFalsy prompt = true ∨ links = []) →
      generate_video cleanFaults env prompt links s0 =
        (Resp.err 400 "Missing prompt or video links", s0)) ∧
    (promptFalsy prompt = false → links ≠ [] → 10 < links.length →
      generate_video cleanFaults env prompt links s0 =
        (Resp.err 400 "Maximum 10 videos allowed", s0)) := by
  constructor
  · intro h1
    unfold generate_video
    have hc : (promptFalsy prompt || links.isEmpty) = true := by
      rcases h1 with h | h
      · simp [h]
      · simp [h]
    rw [if_pos hc]
  · intro h1 h2 h3
    unfold generate_video
    have hc : (promptFalsy prompt || links.isEmpty) = false := by
      simp [h1, h2]
    rw [if_neg (by simp [hc]), if_pos h3]

/-- C9: cleanup swallows per-path removal errors and keeps going, so every
registered path whose own removal does not fail is still removed, and the
set of injected cleanup failures never changes the response reported by the
endpoint. -/
theorem cleanup_swallows_errors_and_preserves_outcome
    (faults : List FPath) (fs : FS) (ps : List FPath) (p : FPath)
    (cf1 cf2 : List FPath) (env : Env) (prompt : Option String)
    (links : List FetchEnv) (s0 : St)
    (hp : p ∈ ps) (hf : p ∉ faults) :
    existsPath (clean_temp_files faults fs ps) p = false ∧
    (generate_video cf1 env prompt links s0).1 =
      (generate_video cf2 env prompt links s0).1 :=
  ⟨clean_removes faults ps fs p hp hf,
   generate_video_resp_indep cf1 cf2 env prompt links s0⟩

/-- C10: clean_temp_files tolerates duplicate and nested registrations: a
path that no longer exists (for instance a file whose parent directory was
removed earlier in the same pass) is silently skipped without error, and
running the cleanup a second time on the same list is a no-op. -/
theorem clean_temp_files_idempotent_and_skips_missing
    (fs : FS) (ps : List FPath) (faults : List FPath) (p : FPath)
    (hgone : existsPath fs p = false) :
    clean_temp_files [] (clean_temp_files [] fs ps) ps =
      clean_temp_files [] fs ps ∧
    clean_step faults fs p = fs :=
  ⟨clean_id_of_all_gone [] ps (clean_temp_files [] fs ps)
     (fun q hq => clean_removes [] ps fs q hq (by simp)),
   clean_step_id_of_gone faults fs p hgone⟩

/-- The empty starting state: empty filesystem, counter 0. -/
def st0 : St := ⟨⟨[], []⟩, 0, [], [], []⟩

/-- Environment with no injected failures and an empty transcript. -/
def envOK : Env := ⟨false, false, [], false, false⟩

/-- A fetch that succeeds with a progressive 720p mp4 stream. -/
def feOK : FetchEnv := ⟨"urlA", [s720], false, false⟩

/-- A second successful fetch. -/
def feOK2 : FetchEnv := ⟨"urlB", [s720], false, false⟩

/-- A fetch whose stream.download call raises after the scratch directory
was created. -/
def feBad : FetchEnv := ⟨"urlA", [s720], false, true⟩

/-- Eleven successful fetch links, one above the limit. -/
def links11 : List FetchEnv := List.replicate 11 feOK

/-- Two successful fetch links. -/
def urls2 : List FetchEnv := [feOK, feOK2]

/-- C1: refuted on the code. With one URL whose stream download raises, the
job fails with a 500 response, the registered workspace tmp0 is removed,
but the fetcher scratch directory tmp1, created by mkdtemp before the
failing download and never registered in temp_paths, is left on disk. -/
theorem fetch_failure_leaks_scratch_dir :
    (generate_video [] envOK (some "Test") [feBad] st0).1 =
      Resp.err 500
        "Video processing failed: YouTube download failed: download error" ∧
    existsPath (generate_video [] envOK (some "Test") [feBad] st0).2.fs
      ["tmp1"] = true ∧
    existsPath (generate_video [] envOK (some "Test") [feBad] st0).2.fs
      ["tmp0"] = false ∧
    ["tmp1"] ∉ (generate_video [] envOK (some "Test") [feBad] st0).2.temp_paths :=
  ⟨rfl, rfl, rfl, by decide⟩

theorem generate_video_rejects_invalid_before_work_witness :
    promptFalsy (some "Test") = false ∧ links11 ≠ [] ∧ 10 < links11.length ∧
    generate_video [] envOK (some "Test") links11 st0 =
      (Resp.err 400 "Maximum 10 videos allowed", st0) :=
  ⟨rfl, by decide, by decide,
   (generate_video_rejects_invalid_before_work [] envOK (some "Test") links11
     st0).2 rfl (by decide) (by decide)⟩

/-- The state reached by the successful two-source run. -/
def c4st : St := (process_video_core envOK urls2 st0).1

theorem process_video_concat_order_witness :
    process_video_core envOK urls2 st0 =
      (c4st, Except.ok ["tmp0", "final_output.mp4"]) ∧
    ((urls2.length = 1 →
      c4st.concatWrites = st0.concatWrites ∧
      ∃ fe v, urls2 = [fe] ∧ v.getLast? = some fe.url ∧
        c4st.cmds = st0.cmds ++ [muxCmd (pathStr v)
          (pathStr (workDirOf st0 ++ ["narration.mp3"]))
          (create_subtitle_filter envOK.transcript)
          (pathStr (workDirOf st0 ++ ["final_output.mp4"]))]) ∧
    (1 < urls2.length →
      ∃ segs, segs.map (fun p => p.getLast?) = urls2.map (fun fe => some fe.url) ∧
        c4st.concatWrites = st0.concatWrites ++
          [(workDirOf st0 ++ ["concat.txt"], segs)] ∧
        c4st.cmds = st0.cmds ++
          [concatCmd (workDirOf st0 ++ ["concat.txt"])
             (workDirOf st0 ++ ["combined.mp4"]),
           muxCmd (pathStr (workDirOf st0 ++ ["combined.mp4"]))
             (pathStr (workDirOf st0 ++ ["narration.mp3"]))
             (create_subtitle_filter envOK.transcript)
             (pathStr (workDirOf st0 ++ ["final_output.mp4"]))])) :=
  ⟨rfl, process_video_concat_order envOK urls2 st0 c4st
    ["tmp0", "final_output.mp4"] rfl⟩

/-- An environment whose transcriber returns one word. -/
def envT : Env := ⟨false, false, [Segment.mk [Word.mk "hi" "0" "1"]], false, false⟩

theorem transcript_empty_is_valid_witness :
    (∀ s ∈ ([] : List Segment), s.words = []) ∧
    (create_subtitle_filter_list [] = [] ∧
     (process_video [] { envT with transcript := ([] : List Segment) }
        [feOK] st0).2 =
       (process_video [] envT [feOK] st0).2) :=
  ⟨by simp, transcript_empty_is_valid [] [] envT [feOK] st0 (by simp)⟩

/-- The state reached by the successful one-source run. -/
def c8st : St := (process_video_core envOK [feOK] st0).1

theorem mux_command_contract_witness :
    process_video_core envOK [feOK] st0 =
      (c8st, Except.ok ["tmp0", "final_output.mp4"]) ∧
    (∃ v f, c8st.cmds.getLast? = some (muxCmd v
        (pathStr (workDirOf st0 ++ ["narration.mp3"])) f
        (pathStr (workDirOf st0 ++ ["final_output.mp4"]))) ∧
      (muxCmd v (pathStr (workDirOf st0 ++ ["narration.mp3"])) f
          (pathStr (workDirOf st0 ++ ["final_output.mp4"]))).take 6 =
        ["ffmpeg", "-y", "-i", v, "-i",
         pathStr (workDirOf st0 ++ ["narration.mp3"])] ∧
      ["-map", "0:v"] <:+: muxCmd v (pathStr (workDirOf st0 ++ ["narration.mp3"])) f
        (pathStr (workDirOf st0 ++ ["final_output.mp4"])) ∧
      ["-map", "1:a"] <:+: muxCmd v (pathStr (workDirOf st0 ++ ["narration.mp3"])) f
        (pathStr (workDirOf st0 ++ ["final_output.mp4"])) ∧
      ["-c:v", "libx264", "-preset", "fast"] <:+:
        muxCmd v (pathStr (workDirOf st0 ++ ["narration.mp3"])) f
          (pathStr (workDirOf st0 ++ ["final_output.mp4"])) ∧
      ["-c:a", "aac"] <:+: muxCmd v (pathStr (workDirOf st0 ++ ["narration.mp3"])) f
        (pathStr (workDirOf st0 ++ ["final_output.mp4"])) ∧
      "-shortest" ∈ muxCmd v (pathStr (workDirOf st0 ++ ["narration.mp3"])) f
        (pathStr (workDirOf st0 ++ ["final_output.mp4"]))) :=
  ⟨rfl, mux_command_contract envOK [feOK] st0 c8st
    ["tmp0", "final_output.mp4"] rfl⟩

/-- A filesystem with two files, one of which the cleanup environment fails
to remove. -/
def fsW : FS := ⟨[], [["a"], ["b"]]⟩

/-- A registry listing the faulty path before the good one. -/
def psW : List FPath := [["b"], ["a"]]

theorem cleanup_swallows_errors_and_preserves_outcome_witness :
    (["a"] : FPath) ∈ psW ∧ (["a"] : FPath) ∉ ([["b"]] : List FPath) ∧
    (existsPath (clean_temp_files [["b"]] fsW psW) ["a"] = false ∧
     (generate_video [] envOK (some "Test") [feOK] st0).1 =
       (generate_video [["tmp0"]] envOK (some "Test") [feOK] st0).1) :=
  ⟨by decide, by decide,
   cleanup_swallows_errors_and_preserves_outcome [["b"]] fsW psW ["a"]
     [] [["tmp0"]] envOK (some "Test") [feOK] st0 (by decide) (by decide)⟩

/-- A filesystem with a directory holding a file, plus a sibling file. -/
def fsW2 : FS := ⟨[["a"]], [["a", "f"], ["b"]]⟩

/-- A registry listing the nested file first, then its parent directory,
then a sibling and a path that never existed. -/
def psW2 : List FPath := [["a", "f"], ["a"], ["b"], ["c"]]

theorem clean_temp_files_idempotent_and_skips_missing_witness :
    existsPath fsW2 ["zzz"] = false ∧
    (clean_temp_files [] (clean_temp_files [] fsW2 psW2) psW2 =
       clean_temp_files [] fsW2 psW2 ∧
     clean_step [["b"]] fsW2 ["zzz"] = fsW2) :=
  ⟨by decide, clean_temp_files_idempotent_and_skips_missing fsW2 psW2 [["b"]]
    ["zzz"] (by decide)⟩
